import Mathlib

/-!
Shallow embedding of `insights_messaging/builder.py` (class `AppBuilder`).

The builder reads a manifest (a nested mapping with sections `plugins`,
`configs` and `service`) and assembles a pipeline: it loads plugin packages
into the external component registry, applies configuration, computes a
target dependency closure, constructs publisher, downloader, engine and
consumer, then constructs watchers and attaches them.

All effects of the Python code (registry loads, registry lookups via
`dr.get_component`, constructor calls, watcher attachment) are recorded as
an explicit event trace; exceptions become `Except.error` carrying the
exact message string built by the source.  External collaborator behaviour
(the `dr` registry) is a parameter `Registry`.
-/

set_option autoImplicit false

/-- A component held by the external registry `dr`.  `cname` is the fully
qualified name returned by `dr.get_name`; the two flags record whether
instances of the component are `isinstance` of `EngineWatcher` resp.
`ConsumerWatcher` (external class hierarchy, opaque to the builder). -/
structure Component where
  cname : String
  engineWatcher : Bool
  consumerWatcher : Bool
deriving DecidableEq

/-- A dependency graph as returned by `dr.get_dependency_graph`: a Python
dict from component name to its list of dependency names, modelled as an
association list in insertion order. -/
abbrev Graph := List (String × List String)

/-- A runtime Python value appearing as a constructor argument or result:
an opaque manifest-supplied value, a class object (not instantiated), an
instance `cls(*args, **kwargs)`, or the target-closure value passed to
`Engine` (a dict or `None`). -/
inductive Obj where
  | atom (v : String)
  | graphVal (g : Option Graph)
  | cls (c : Component)
  | inst (c : Component) (args : List Obj) (kwargs : List (String × Obj))

/-- One entry of a `configs` override list (`{name, enabled}`). -/
structure ConfigEntry where
  cfgName : String
  enabled : Bool
deriving DecidableEq

/-- The `plugins` section of the manifest.  `configs` is the `configs` key
of this mapping (relevant because the external `apply_configs(config)`
reads `config.get("configs", [])` from whatever mapping it is handed). -/
structure Plugins where
  packages : List String := []
  default_component_enabled : Option Bool := none
  configs : List ConfigEntry := []
deriving DecidableEq

/-- A ComponentSpec sub-mapping `{name, args?, kwargs?}`; `spec.get("args",
[])` makes an absent key behave as the empty list, so absence is modelled
by the empty list. -/
structure ComponentSpec where
  name : String
  args : List String := []
  kwargs : List (String × String) := []
deriving DecidableEq

/-- The `service` section.  A field is `none` when the key is absent (the
source tests `"format" not in self.service` etc.).  `target_components`
is read with `self.service.get("target_components", [])`, so absence and
the empty list coincide. -/
structure Service where
  format : Option String := none
  consumer : Option ComponentSpec := none
  publisher : Option ComponentSpec := none
  downloader : Option ComponentSpec := none
  watchers : Option (List ComponentSpec) := none
  target_components : List String := []
deriving DecidableEq

/-- A parsed manifest: the three top-level sections, each possibly absent. -/
structure Manifest where
  plugins : Option Plugins := none
  configs : Option (List ConfigEntry) := none
  service : Option Service := none
deriving DecidableEq

/-- The external registry `dr` together with the outcome of package loads:
`delegates` is `dr.DELEGATES` in iteration order, `get_component` is
`dr.get_component`, `get_dependency_graph` is `dr.get_dependency_graph`,
`load_ok p` tells whether `dr.load_components(p, ...)` succeeds and
`load_err p` is the message of the exception it raises otherwise. -/
structure Registry where
  delegates : List Component
  get_component : String → Option Component
  get_dependency_graph : Component → Graph
  load_ok : String → Bool
  load_err : String → String

/-- Observable effects of a build, in program order. -/
inductive Event where
  | loadComponents (pkg : String) (continue_on_error : Bool)
  | applyDefaultEnabled (arg : Plugins)
  | applyConfigs (arg : Plugins)
  | getComponent (name : String)
  | construct (obj : Obj)
  | watchEngine (w : Obj)
  | watchConsumer (w : Obj)

/-- Built-in classes used for defaulting (external collaborators). -/
def HumanReadableFormat : Component :=
  ⟨"insights.formats.text.HumanReadableFormat", false, false⟩

def LocalFS : Component :=
  ⟨"insights_messaging.downloaders.localfs.LocalFS", false, false⟩

def Interactive : Component :=
  ⟨"insights_messaging.consumers.cli.Interactive", false, false⟩

def StdOut : Component :=
  ⟨"insights_messaging.publishers.cli.StdOut", false, false⟩

def EngineCls : Component :=
  ⟨"insights_messaging.engine.Engine", false, false⟩

/-- The exception message of `raise Exception(f"Couldn't find {name}.")`. -/
def notFoundMsg (name : String) : String :=
  "Couldn\x27t find " ++ name ++ "."

/-- Manifest kwargs turned into runtime values. -/
def kwObjs (l : List (String × String)) : List (String × Obj) :=
  l.map (fun p => (p.1, Obj.atom p.2))

/-- `AppBuilder._load_packages`: `dr.load_components(p, continue_on_error=False)`
for each package in order, aborting at the first failure. -/
def load_packages (reg : Registry) : List String → List Event × Except String Unit
  | [] => ([], .ok ())
  | p :: ps =>
    if reg.load_ok p then
      let r := load_packages reg ps
      (Event.loadComponents p false :: r.1, r.2)
    else
      ([Event.loadComponents p false], .error (reg.load_err p))

/-- `AppBuilder._get_format`: default `HumanReadableFormat` (the class,
returned without touching the registry), otherwise a registry lookup that
raises on `None`. -/
def get_format (reg : Registry) (svc : Service) : List Event × Except String Obj :=
  match svc.format with
  | none => ([], .ok (Obj.cls HumanReadableFormat))
  | some name =>
    match reg.get_component name with
    | none => ([Event.getComponent name], .error (notFoundMsg name))
    | some fmt => ([Event.getComponent name], .ok (Obj.cls fmt))

/-- `AppBuilder._get_publisher`: default `StdOut()` (constructed with no
arguments, no registry lookup), otherwise lookup and construct with the
spec args and kwargs. -/
def get_publisher (reg : Registry) (svc : Service) : List Event × Except String Obj :=
  match svc.publisher with
  | none =>
    let obj := Obj.inst StdOut [] []
    ([Event.construct obj], .ok obj)
  | some spec =>
    match reg.get_component spec.name with
    | none => ([Event.getComponent spec.name], .error (notFoundMsg spec.name))
    | some c =>
      let obj := Obj.inst c (spec.args.map Obj.atom) (kwObjs spec.kwargs)
      ([Event.getComponent spec.name, Event.construct obj], .ok obj)

/-- `AppBuilder._load`: generic ComponentSpec loader, `comp(*args, **kwargs)`. -/
def load_spec (reg : Registry) (spec : ComponentSpec) : List Event × Except String Obj :=
  match reg.get_component spec.name with
  | none => ([Event.getComponent spec.name], .error (notFoundMsg spec.name))
  | some c =>
    let obj := Obj.inst c (spec.args.map Obj.atom) (kwObjs spec.kwargs)
    ([Event.getComponent spec.name, Event.construct obj], .ok obj)

/-- `AppBuilder._get_downloader`: default is the class `LocalFS` itself,
returned uninstantiated and without a registry lookup; otherwise `_load`. -/
def get_downloader (reg : Registry) (svc : Service) : List Event × Except String Obj :=
  match svc.downloader with
  | none => ([], .ok (Obj.cls LocalFS))
  | some spec => load_spec reg spec

/-- `AppBuilder._get_consumer`: default `Interactive(publisher, downloader,
engine)`; otherwise lookup and construct with `(publisher, downloader,
engine, *args, **kwargs)`. -/
def get_consumer (reg : Registry) (svc : Service) (publisher downloader engine : Obj) :
    List Event × Except String Obj :=
  match svc.consumer with
  | none =>
    let obj := Obj.inst Interactive [publisher, downloader, engine] []
    ([Event.construct obj], .ok obj)
  | some spec =>
    match reg.get_component spec.name with
    | none => ([Event.getComponent spec.name], .error (notFoundMsg spec.name))
    | some c =>
      let obj := Obj.inst c ([publisher, downloader, engine] ++ spec.args.map Obj.atom)
        (kwObjs spec.kwargs)
      ([Event.getComponent spec.name, Event.construct obj], .ok obj)

/-- `[self._load(w) for w in watchers]`: loads in order, aborting at the
first failure (constructions before the failure have already happened). -/
def load_specs (reg : Registry) : List ComponentSpec → List Event × Except String (List Obj)
  | [] => ([], .ok [])
  | w :: ws =>
    let r := load_spec reg w
    match r.2 with
    | .error e => (r.1, .error e)
    | .ok obj =>
      let rest := load_specs reg ws
      (r.1 ++ rest.1, rest.2.map (obj :: ·))

/-- `AppBuilder._get_watchers`. -/
def get_watchers (reg : Registry) (svc : Service) : List Event × Except String (List Obj) :=
  match svc.watchers with
  | none => ([], .ok [])
  | some ws => load_specs reg ws

/-- The key list of a graph, in insertion order. -/
def keys (g : Graph) : List String :=
  g.map Prod.fst

/-- Python dict assignment `g[k] = v` inside `dict.update`: replace in
place when the key exists, append otherwise. -/
def updEntry (g : Graph) (k : String) (v : List String) : Graph :=
  if k ∈ keys g then g.map (fun p => if p.1 = k then (k, v) else p)
  else g ++ [(k, v)]

/-- Python `g.update(h)`. -/
def dictUpdate (g h : Graph) : Graph :=
  h.foldl (fun acc p => updEntry acc p.1 p.2) g

/-- Left-to-right merge of a list of graphs into an initially empty dict. -/
def mergeGraphs (gs : List Graph) : Graph :=
  gs.foldl dictUpdate []

/-- Python `s.startswith(t)` for single strings: `t` is a raw character
prefix of `s`. -/
def strStartsWith (s t : String) : Bool :=
  t.data.isPrefixOf s.data

/-- Does `dr.get_name(c)` start with one of the target entries?  This is
`name.startswith(tc)` with `tc` a tuple: true when any entry is a raw
string prefix of the name. -/
def matchesTarget (tc : List String) (c : Component) : Bool :=
  tc.any (fun t => strStartsWith c.cname t)

/-- The accumulating loop of `_get_target_components`: start from the
empty dict and `graph.update(dr.get_dependency_graph(c))` for every
delegate whose name matches a target entry. -/
def targetFold (reg : Registry) (tc : List String) : Graph :=
  reg.delegates.foldl
    (fun g c => if matchesTarget tc c then dictUpdate g (reg.get_dependency_graph c) else g) []

/-- `AppBuilder._get_target_components`: `None` when the target list is
empty, otherwise the accumulated merge, with `graph or None` turning an
empty result back into `None`. -/
def get_target_components (reg : Registry) (svc : Service) : Option Graph :=
  let tc := svc.target_components
  if tc.isEmpty then none
  else
    let graph := targetFold reg tc
    if graph.isEmpty then none else some graph

/-- Attachment loop of `build_app` (lines 125 to 129): for each watcher,
`w.watch(engine)` when `isinstance(w, EngineWatcher)` and `w.watch(consumer)`
when `isinstance(w, ConsumerWatcher)` — two independent checks. -/
def Obj.isEngineWatcher : Obj → Bool
  | .inst c _ _ => c.engineWatcher
  | _ => false

def Obj.isConsumerWatcher : Obj → Bool
  | .inst c _ _ => c.consumerWatcher
  | _ => false

def attach_events : List Obj → List Event
  | [] => []
  | w :: rest =>
    (if w.isEngineWatcher then [Event.watchEngine w] else []) ++
    (if w.isConsumerWatcher then [Event.watchConsumer w] else []) ++
    attach_events rest

/-- Lines 119 to 131 of `build_app`, after plugin loading and configuration:
compute the target closure, construct publisher, downloader,
`Engine(target_components, self._get_format())`, consumer, then watchers,
and attach the watchers.  The returned object is the consumer. -/
def assemble (reg : Registry) (svc : Service) (tcGraph : Option Graph) :
    List Event × Except String Obj :=
  let rp := get_publisher reg svc
  match rp.2 with
  | .error e => (rp.1, .error e)
  | .ok publisher =>
    let rd := get_downloader reg svc
    match rd.2 with
    | .error e => (rp.1 ++ rd.1, .error e)
    | .ok downloader =>
      let rf := get_format reg svc
      match rf.2 with
      | .error e => (rp.1 ++ rd.1 ++ rf.1, .error e)
      | .ok fmt =>
        let engine := Obj.inst EngineCls [Obj.graphVal tcGraph, fmt] []
        let te := [Event.construct engine]
        let rc := get_consumer reg svc publisher downloader engine
        match rc.2 with
        | .error e => (rp.1 ++ rd.1 ++ rf.1 ++ te ++ rc.1, .error e)
        | .ok consumer =>
          let rw := get_watchers reg svc
          match rw.2 with
          | .error e => (rp.1 ++ rd.1 ++ rf.1 ++ te ++ rc.1 ++ rw.1, .error e)
          | .ok ws =>
            (rp.1 ++ rd.1 ++ rf.1 ++ te ++ rc.1 ++ rw.1 ++ attach_events ws, .ok consumer)

/-- `AppBuilder.build_app`: load plugin packages (abort on failure), call
`apply_default_enabled(self.plugins)` then `apply_configs(self.plugins)`
(both receive the `plugins` mapping), then assemble the pipeline.
`self.plugins` and `self.service` are `manifest.get(..., {})`. -/
def build_app (reg : Registry) (m : Manifest) : List Event × Except String Obj :=
  let plugins := m.plugins.getD {}
  let svc := m.service.getD {}
  let r1 := load_packages reg plugins.packages
  match r1.2 with
  | .error e => (r1.1, .error e)
  | .ok _ =>
    let r3 := assemble reg svc (get_target_components reg svc)
    (r1.1 ++ [Event.applyDefaultEnabled plugins, Event.applyConfigs plugins] ++ r3.1, r3.2)

/-! ### Concrete registries and manifests used to evaluate the model -/

/-- A concrete registry realising the registry state of the spec example:
delegates `pkg.a.x`, `pkg.a.y`, `pkg.b.z` with small dependency subgraphs. -/
def regT : Registry where
  delegates := [⟨"pkg.a.x", false, false⟩, ⟨"pkg.a.y", false, false⟩, ⟨"pkg.b.z", false, false⟩]
  get_component := fun _ => none
  get_dependency_graph := fun c =>
    if c.cname = "pkg.a.x" then [("pkg.a.x", ["d1"]), ("d1", [])]
    else if c.cname = "pkg.a.y" then [("pkg.a.y", ["d1"]), ("d1", [])]
    else [("pkg.b.z", ["d2"]), ("d2", [])]
  load_ok := fun _ => true
  load_err := fun _ => ""

/-- Service section selecting target `pkg.a` (the spec example). -/
def svcT : Service := { target_components := ["pkg.a"] }

/-- The closure computed for `svcT` over `regT`. -/
def gT : Graph := [("pkg.a.x", ["d1"]), ("d1", []), ("pkg.a.y", ["d1"])]

/-- Service section whose target list matches no registered name. -/
def svcZ : Service := { target_components := ["zzz"] }

/-- Manifest around `svcZ`. -/
def mZ : Manifest := { service := some svcZ }

/-- Concrete resolvable components for pipeline slots. -/
def compPub : Component := ⟨"good.pub", false, false⟩

def compDl : Component := ⟨"good.dl", false, false⟩

def compFmt : Component := ⟨"good.fmt", false, false⟩

def compCons : Component := ⟨"good.cons", false, false⟩

def compW : Component := ⟨"good.w", true, true⟩

/-- A registry resolving the five `good.*` names and nothing else. -/
def regR : Registry where
  delegates := []
  get_component := fun n =>
    if n = "good.pub" then some compPub
    else if n = "good.dl" then some compDl
    else if n = "good.fmt" then some compFmt
    else if n = "good.cons" then some compCons
    else if n = "good.w" then some compW
    else none
  get_dependency_graph := fun _ => []
  load_ok := fun _ => true
  load_err := fun _ => ""

/-- A registry on which loading the package `bad.pkg` fails. -/
def regF : Registry where
  delegates := []
  get_component := fun _ => none
  get_dependency_graph := fun _ => []
  load_ok := fun p => !(p == "bad.pkg")
  load_err := fun _ => "boom"

/-- Plugins section with no override list nested under it. -/
def pl1 : Plugins := { default_component_enabled := some true }

/-- An override entry, as in the `configs` section of the default manifest. -/
def cfg1 : ConfigEntry := ⟨"examples.rules.bash_version.report", true⟩

/-- Manifest whose top level `configs` section holds `cfg1`. -/
def m1 : Manifest := { plugins := some pl1, configs := some [cfg1] }

/-- Manifest listing a package whose load fails. -/
def m4 : Manifest := { plugins := some { packages := ["good.pkg", "bad.pkg"] } }

/-- Fully specified service whose only watcher name is unresolvable. -/
def svc10 : Service :=
  { format := some "good.fmt",
    consumer := some { name := "good.cons" },
    publisher := some { name := "good.pub" },
    downloader := some { name := "good.dl" },
    watchers := some [{ name := "missing.w" }] }

/-- Manifest around `svc10`. -/
def m10 : Manifest := { service := some svc10 }

/-- Service whose only present slot is an unresolvable publisher. -/
def svc5p : Service := { publisher := some { name := "missing.pub" } }

/-- Manifest around `svc5p`. -/
def m5p : Manifest := { service := some svc5p }

/-- The empty service section: every key absent. -/
def svc0 : Service := {}

/-- A watcher instance exposing both observation capabilities. -/
def wBoth : Obj := Obj.inst compW [] []

/-- A watcher instance exposing neither observation capability. -/
def wNone : Obj := Obj.inst compPub [] []

/-- A constructed watcher list. -/
def ws8 : List Obj := [wBoth, wNone]

/-- A ComponentSpec carrying positional and keyword arguments. -/
def spec6 : ComponentSpec :=
  { name := "good.cons", args := ["a1", "a2"], kwargs := [("k", "v")] }

/-! ### Lemmas about the dict operations used by the target closure -/

theorem keys_append (g h : Graph) : keys (g ++ h) = keys g ++ keys h := by
  simp [keys]

theorem keys_map_replace (g : Graph) (k : String) (v : List String) :
    keys (g.map (fun p => if p.1 = k then (k, v) else p)) = keys g := by
  induction g with
  | nil => rfl
  | cons p t ih =>
    simp only [List.map_cons, keys] at ih ⊢
    by_cases h : p.1 = k <;> simp [h, ih]

theorem mem_keys_updEntry (g : Graph) (k : String) (v : List String) (a : String) :
    a ∈ keys (updEntry g k v) ↔ a ∈ keys g ∨ a = k := by
  unfold updEntry
  by_cases h : k ∈ keys g
  · rw [if_pos h, keys_map_replace]
    constructor
    · exact Or.inl
    · rintro (ha | rfl)
      · exact ha
      · exact h
  · rw [if_neg h, keys_append]
    simp [keys]

theorem mem_keys_dictUpdate (g h : Graph) (a : String) :
    a ∈ keys (dictUpdate g h) ↔ a ∈ keys g ∨ a ∈ keys h := by
  induction h generalizing g with
  | nil => simp [dictUpdate, keys]
  | cons p t ih =>
    show a ∈ keys (dictUpdate (updEntry g p.1 p.2) t) ↔ _
    rw [ih, mem_keys_updEntry]
    simp only [keys, List.map_cons, List.mem_cons]
    tauto

theorem mem_keys_foldl_update (reg : Registry) (tc : List String) (l : List Component)
    (g0 : Graph) (a : String) :
    a ∈ keys (l.foldl
        (fun g c => if matchesTarget tc c then dictUpdate g (reg.get_dependency_graph c) else g)
        g0) ↔
      a ∈ keys g0 ∨
        ∃ c, c ∈ l ∧ matchesTarget tc c = true ∧ a ∈ keys (reg.get_dependency_graph c) := by
  induction l generalizing g0 with
  | nil => simp
  | cons c t ih =>
    rw [List.foldl_cons]
    by_cases h : matchesTarget tc c = true
    · rw [if_pos h, ih, mem_keys_dictUpdate]
      simp only [List.mem_cons]
      constructor
      · rintro ((hg | hd) | ⟨c2, hc2, hm, hk⟩)
        · exact Or.inl hg
        · exact Or.inr ⟨c, Or.inl rfl, h, hd⟩
        · exact Or.inr ⟨c2, Or.inr hc2, hm, hk⟩
      · rintro (hg | ⟨c2, (rfl | hc2), hm, hk⟩)
        · exact Or.inl (Or.inl hg)
        · exact Or.inl (Or.inr hk)
        · exact Or.inr ⟨c2, hc2, hm, hk⟩
    · rw [if_neg h, ih]
      simp only [List.mem_cons]
      constructor
      · rintro (hg | ⟨c2, hc2, hm, hk⟩)
        · exact Or.inl hg
        · exact Or.inr ⟨c2, Or.inr hc2, hm, hk⟩
      · rintro (hg | ⟨c2, (rfl | hc2), hm, hk⟩)
        · exact Or.inl hg
        · exact absurd hm h
        · exact Or.inr ⟨c2, hc2, hm, hk⟩

theorem foldl_update_eq_merge (reg : Registry) (tc : List String) (l : List Component)
    (g0 : Graph) :
    l.foldl
        (fun g c => if matchesTarget tc c then dictUpdate g (reg.get_dependency_graph c) else g)
        g0 =
      ((l.filter (matchesTarget tc)).map reg.get_dependency_graph).foldl dictUpdate g0 := by
  induction l generalizing g0 with
  | nil => rfl
  | cons c t ih =>
    rw [List.foldl_cons]
    by_cases h : matchesTarget tc c = true
    · rw [if_pos h, ih, List.filter_cons_of_pos h, List.map_cons, List.foldl_cons]
    · rw [if_neg h, ih, List.filter_cons_of_neg (by simpa using h)]

theorem targetFold_eq_merge (reg : Registry) (tc : List String) :
    targetFold reg tc =
      mergeGraphs ((reg.delegates.filter (matchesTarget tc)).map reg.get_dependency_graph) := by
  unfold targetFold mergeGraphs
  exact foldl_update_eq_merge reg tc reg.delegates []

theorem mem_keys_targetFold (reg : Registry) (tc : List String) (a : String) :
    a ∈ keys (targetFold reg tc) ↔
      ∃ c, c ∈ reg.delegates ∧ matchesTarget tc c = true ∧
        a ∈ keys (reg.get_dependency_graph c) := by
  unfold targetFold
  rw [mem_keys_foldl_update]
  simp [keys]

theorem foldl_update_no_match (reg : Registry) (tc : List String) (l : List Component)
    (g0 : Graph) (h : ∀ c ∈ l, matchesTarget tc c = false) :
    l.foldl
        (fun g c => if matchesTarget tc c then dictUpdate g (reg.get_dependency_graph c) else g)
        g0 = g0 := by
  induction l generalizing g0 with
  | nil => rfl
  | cons c t ih =>
    rw [List.foldl_cons, if_neg (by simp [h c (List.mem_cons_self c t)])]
    exact ih g0 (fun c2 hc2 => h c2 (List.mem_cons_of_mem c hc2))

theorem targetFold_no_match (reg : Registry) (tc : List String)
    (h : ∀ c ∈ reg.delegates, matchesTarget tc c = false) :
    targetFold reg tc = [] :=
  foldl_update_no_match reg tc reg.delegates [] h

/-- Shape of a successful plugin-loading phase inside `build_app`. -/
theorem build_app_ok (reg : Registry) (m : Manifest) (pl : Plugins) (svc : Service)
    (t0 : List Event)
    (hpl : m.plugins.getD {} = pl) (hsvc : m.service.getD {} = svc)
    (hld : load_packages reg pl.packages = (t0, Except.ok ())) :
    build_app reg m =
      (t0 ++ [Event.applyDefaultEnabled pl, Event.applyConfigs pl] ++
        (assemble reg svc (get_target_components reg svc)).1,
       (assemble reg svc (get_target_components reg svc)).2) := by
  simp only [build_app, hpl, hsvc, hld]

/-! ### Claim theorems -/

/-- C2: when `service.target_components` is non-empty but no registered
component name starts with any listed target entry, the computed closure
is `None` (no restriction) rather than an empty mapping, and the build is
the same build as for the manifest with `target_components` absent. -/
theorem empty_target_match_is_unrestricted (reg : Registry) (m : Manifest) (svc : Service)
    (hsvc : m.service.getD {} = svc)
    (htc : svc.target_components ≠ [])
    (hnm : ∀ c ∈ reg.delegates, matchesTarget svc.target_components c = false) :
    get_target_components reg svc = none ∧
    build_app reg m =
      build_app reg { m with service := some { svc with target_components := [] } } := by
  have hne : svc.target_components.isEmpty = false := by
    simp [List.isEmpty_iff, htc]
  have h1 : get_target_components reg svc = none := by
    simp [get_target_components, hne, targetFold_no_match reg svc.target_components hnm]
  have h2 : get_target_components reg { svc with target_components := [] } = none := rfl
  refine ⟨h1, ?_⟩
  simp only [build_app, hsvc]
  rw [h1]
  have h3 : ({ m with service := some { svc with target_components := [] } } : Manifest).service.getD {} =
      { svc with target_components := [] } := rfl
  rw [h3, h2]
  have h4 : ({ m with service := some { svc with target_components := [] } } : Manifest).plugins =
      m.plugins := rfl
  rw [h4]
  have h5 : assemble reg { svc with target_components := [] } none = assemble reg svc none := rfl
  rw [h5]

/-- Witness for C2 at the concrete registry `regT` and target `zzz`. -/
theorem empty_target_match_is_unrestricted_witness :
    (mZ.service.getD {} = svcZ ∧ svcZ.target_components ≠ [] ∧
      (∀ c ∈ regT.delegates, matchesTarget svcZ.target_components c = false)) ∧
    (get_target_components regT svcZ = none ∧
      build_app regT mZ =
        build_app regT { mZ with service := some { svcZ with target_components := [] } }) :=
  ⟨⟨rfl, by decide, by decide⟩,
    empty_target_match_is_unrestricted regT mZ svcZ rfl (by decide) (by decide)⟩

/-- C3: for a non-empty target list, the computed closure is the merge of
the dependency subgraphs of exactly the registered components whose name
has some target entry as a raw string prefix; a key is present in the
closure exactly when it is a key of the subgraph of some matching
component, so components matching no target entry contribute nothing. -/
theorem target_closure_prefix_merge (reg : Registry) (svc : Service) (g : Graph)
    (htc : svc.target_components ≠ [])
    (hg : get_target_components reg svc = some g) :
    g = mergeGraphs
        ((reg.delegates.filter (matchesTarget svc.target_components)).map
          reg.get_dependency_graph) ∧
    ∀ a, a ∈ keys g ↔
      ∃ c, c ∈ reg.delegates ∧ matchesTarget svc.target_components c = true ∧
        a ∈ keys (reg.get_dependency_graph c) := by
  have hne : svc.target_components.isEmpty = false := by
    simp [List.isEmpty_iff, htc]
  have hgf : targetFold reg svc.target_components = g := by
    simp only [get_target_components, hne, Bool.false_eq_true, if_false] at hg
    by_cases hfe : (targetFold reg svc.target_components).isEmpty = true
    · rw [if_pos hfe] at hg
      cases hg
    · rw [if_neg hfe] at hg
      exact Option.some_injective _ hg
  constructor
  · rw [← hgf]
    exact targetFold_eq_merge reg svc.target_components
  · intro a
    rw [← hgf]
    exact mem_keys_targetFold reg svc.target_components a

/-- Witness for C3 at the spec example: registry `pkg.a.x`, `pkg.a.y`,
`pkg.b.z` and target list `[pkg.a]`. -/
theorem target_closure_prefix_merge_witness :
    (svcT.target_components ≠ [] ∧ get_target_components regT svcT = some gT) ∧
    (gT = mergeGraphs
        ((regT.delegates.filter (matchesTarget svcT.target_components)).map
          regT.get_dependency_graph) ∧
      ∀ a, a ∈ keys gT ↔
        ∃ c, c ∈ regT.delegates ∧ matchesTarget svcT.target_components c = true ∧
          a ∈ keys (regT.get_dependency_graph c)) :=
  ⟨⟨by decide, by decide⟩,
    target_closure_prefix_merge regT svcT gT (by decide) (by decide)⟩

/-! ### Error propagation through the assembly sequence -/

theorem assemble_err_publisher (reg : Registry) (svc : Service) (g : Option Graph) (e : String)
    (h : (get_publisher reg svc).2 = .error e) :
    (assemble reg svc g).2 = .error e := by
  simp only [assemble, h]

theorem assemble_err_downloader (reg : Registry) (svc : Service) (g : Option Graph)
    (pub : Obj) (e : String)
    (h1 : (get_publisher reg svc).2 = .ok pub)
    (h2 : (get_downloader reg svc).2 = .error e) :
    (assemble reg svc g).2 = .error e := by
  simp only [assemble, h1, h2]

theorem assemble_err_format (reg : Registry) (svc : Service) (g : Option Graph)
    (pub dl : Obj) (e : String)
    (h1 : (get_publisher reg svc).2 = .ok pub)
    (h2 : (get_downloader reg svc).2 = .ok dl)
    (h3 : (get_format reg svc).2 = .error e) :
    (assemble reg svc g).2 = .error e := by
  simp only [assemble, h1, h2, h3]

theorem assemble_err_consumer (reg : Registry) (svc : Service) (g : Option Graph)
    (pub dl fmt : Obj) (e : String)
    (h1 : (get_publisher reg svc).2 = .ok pub)
    (h2 : (get_downloader reg svc).2 = .ok dl)
    (h3 : (get_format reg svc).2 = .ok fmt)
    (h4 : (get_consumer reg svc pub dl (Obj.inst EngineCls [Obj.graphVal g, fmt] [])).2 =
      .error e) :
    (assemble reg svc g).2 = .error e := by
  simp only [assemble, h1, h2, h3, h4]

theorem assemble_err_watchers (reg : Registry) (svc : Service) (g : Option Graph)
    (pub dl fmt cons : Obj) (e : String)
    (h1 : (get_publisher reg svc).2 = .ok pub)
    (h2 : (get_downloader reg svc).2 = .ok dl)
    (h3 : (get_format reg svc).2 = .ok fmt)
    (h4 : (get_consumer reg svc pub dl (Obj.inst EngineCls [Obj.graphVal g, fmt] [])).2 = .ok cons)
    (h5 : (get_watchers reg svc).2 = .error e) :
    (assemble reg svc g).2 = .error e := by
  simp only [assemble, h1, h2, h3, h4, h5]

theorem get_publisher_err (reg : Registry) (svc : Service) (spec : ComponentSpec)
    (hs : svc.publisher = some spec) (hn : reg.get_component spec.name = none) :
    (get_publisher reg svc).2 = .error (notFoundMsg spec.name) := by
  simp only [get_publisher, hs, hn]

theorem get_downloader_err (reg : Registry) (svc : Service) (spec : ComponentSpec)
    (hs : svc.downloader = some spec) (hn : reg.get_component spec.name = none) :
    (get_downloader reg svc).2 = .error (notFoundMsg spec.name) := by
  simp only [get_downloader, hs, load_spec, hn]

theorem get_format_err (reg : Registry) (svc : Service) (nm : String)
    (hs : svc.format = some nm) (hn : reg.get_component nm = none) :
    (get_format reg svc).2 = .error (notFoundMsg nm) := by
  simp only [get_format, hs, hn]

theorem get_consumer_err (reg : Registry) (svc : Service) (spec : ComponentSpec)
    (pub dl eng : Obj)
    (hs : svc.consumer = some spec) (hn : reg.get_component spec.name = none) :
    (get_consumer reg svc pub dl eng).2 = .error (notFoundMsg spec.name) := by
  simp only [get_consumer, hs, hn]

theorem load_specs_err (reg : Registry) (ws1 : List ComponentSpec) (w : ComponentSpec)
    (ws2 : List ComponentSpec)
    (hok : ∀ w1 ∈ ws1, (reg.get_component w1.name).isSome = true)
    (hn : reg.get_component w.name = none) :
    (load_specs reg (ws1 ++ w :: ws2)).2 = .error (notFoundMsg w.name) := by
  induction ws1 with
  | nil => simp [load_specs, load_spec, hn]
  | cons w1 t ih =>
    have h1 : (reg.get_component w1.name).isSome = true := hok w1 (List.mem_cons_self w1 t)
    obtain ⟨c, hc⟩ := Option.isSome_iff_exists.mp h1
    have ih2 := ih (fun x hx => hok x (List.mem_cons_of_mem _ hx))
    simp only [List.cons_append, load_specs, load_spec, hc]
    rw [show t.append (w :: ws2) = t ++ (w :: ws2) from rfl, ih2]
    rfl

theorem get_watchers_err (reg : Registry) (svc : Service) (ws1 : List ComponentSpec)
    (w : ComponentSpec) (ws2 : List ComponentSpec)
    (hw : svc.watchers = some (ws1 ++ w :: ws2))
    (hok : ∀ w1 ∈ ws1, (reg.get_component w1.name).isSome = true)
    (hn : reg.get_component w.name = none) :
    (get_watchers reg svc).2 = .error (notFoundMsg w.name) := by
  simp only [get_watchers, hw]
  exact load_specs_err reg ws1 w ws2 hok hn

theorem load_packages_trace (reg : Registry) (pkgs : List String) :
    ∀ ev ∈ (load_packages reg pkgs).1, ∃ q, ev = Event.loadComponents q false := by
  induction pkgs with
  | nil => simp [load_packages]
  | cons p ps ih =>
    intro ev hev
    simp only [load_packages] at hev
    by_cases hp : reg.load_ok p = true
    · rw [if_pos hp] at hev
      rcases List.mem_cons.mp hev with rfl | h2
      · exact ⟨p, rfl⟩
      · exact ih ev h2
    · rw [if_neg hp] at hev
      rcases List.mem_singleton.mp hev with rfl
      exact ⟨p, rfl⟩

theorem load_packages_fails (reg : Registry) (pkgs : List String)
    (h : ∃ p ∈ pkgs, reg.load_ok p = false) :
    ∃ e, (load_packages reg pkgs).2 = .error e := by
  induction pkgs with
  | nil => simp at h
  | cons p ps ih =>
    by_cases hp : reg.load_ok p = true
    · obtain ⟨q, hq, hfq⟩ := h
      rcases List.mem_cons.mp hq with rfl | hq2
      · rw [hp] at hfq
        cases hfq
      · obtain ⟨e, he⟩ := ih ⟨q, hq2, hfq⟩
        refine ⟨e, ?_⟩
        simp only [load_packages]
        rw [if_pos hp]
        exact he
    · refine ⟨reg.load_err p, ?_⟩
      simp only [load_packages]
      rw [if_neg hp]

/-- C4: when loading any listed plugin package fails, `build_app` returns
an error and its whole trace consists of `load_components` calls with
`continue_on_error` disabled: no publisher, downloader, engine or consumer
constructor has run, and no configuration has been applied. -/
theorem plugin_load_failure_aborts_build (reg : Registry) (m : Manifest) (pl : Plugins)
    (hpl : m.plugins.getD {} = pl)
    (hfail : ∃ p ∈ pl.packages, reg.load_ok p = false) :
    (∃ e, (build_app reg m).2 = .error e) ∧
    (∀ ev ∈ (build_app reg m).1, ∃ q, ev = Event.loadComponents q false) := by
  obtain ⟨e, he⟩ := load_packages_fails reg pl.packages hfail
  have hb : build_app reg m = ((load_packages reg pl.packages).1, .error e) := by
    simp only [build_app, hpl, he]
  rw [hb]
  exact ⟨⟨e, rfl⟩, load_packages_trace reg pl.packages⟩

/-- Witness for C4: a manifest listing a failing package. -/
theorem plugin_load_failure_aborts_build_witness :
    ((∃ p ∈ ({ packages := ["good.pkg", "bad.pkg"] } : Plugins).packages,
        regF.load_ok p = false)) ∧
    (∃ e, (build_app regF m4).2 = .error e) ∧
    (∀ ev ∈ (build_app regF m4).1, ∃ q, ev = Event.loadComponents q false) :=
  ⟨⟨"bad.pkg", by decide, by decide⟩,
    plugin_load_failure_aborts_build regF m4 { packages := ["good.pkg", "bad.pkg"] } rfl
      ⟨"bad.pkg", by decide, by decide⟩⟩

/-- C5: a manifest name that does not resolve in the registry — in
`service.publisher`, `service.downloader`, `service.format`,
`service.consumer` or a watcher spec — makes `build_app` raise exactly the
message built by the source, which embeds the unresolved identifier
verbatim between the words of `notFoundMsg`.  Each conjunct assumes the
steps that the source runs earlier have succeeded. -/
theorem unresolved_name_raises_named_error
    (reg : Registry) (m : Manifest) (svc : Service) (t0 : List Event)
    (hsvc : m.service.getD {} = svc)
    (hld : load_packages reg (m.plugins.getD {}).packages = (t0, Except.ok ())) :
    (∀ spec, svc.publisher = some spec → reg.get_component spec.name = none →
      (build_app reg m).2 = .error (notFoundMsg spec.name)) ∧
    (∀ pub spec, (get_publisher reg svc).2 = .ok pub →
      svc.downloader = some spec → reg.get_component spec.name = none →
      (build_app reg m).2 = .error (notFoundMsg spec.name)) ∧
    (∀ pub dl nm, (get_publisher reg svc).2 = .ok pub →
      (get_downloader reg svc).2 = .ok dl →
      svc.format = some nm → reg.get_component nm = none →
      (build_app reg m).2 = .error (notFoundMsg nm)) ∧
    (∀ pub dl fmt spec, (get_publisher reg svc).2 = .ok pub →
      (get_downloader reg svc).2 = .ok dl → (get_format reg svc).2 = .ok fmt →
      svc.consumer = some spec → reg.get_component spec.name = none →
      (build_app reg m).2 = .error (notFoundMsg spec.name)) ∧
    (∀ pub dl fmt cons ws1 w ws2, (get_publisher reg svc).2 = .ok pub →
      (get_downloader reg svc).2 = .ok dl → (get_format reg svc).2 = .ok fmt →
      (get_consumer reg svc pub dl
        (Obj.inst EngineCls [Obj.graphVal (get_target_components reg svc), fmt] [])).2 =
          .ok cons →
      svc.watchers = some (ws1 ++ w :: ws2) →
      (∀ w1 ∈ ws1, (reg.get_component w1.name).isSome = true) →
      reg.get_component w.name = none →
      (build_app reg m).2 = .error (notFoundMsg w.name)) := by
  have hb : (build_app reg m).2 = (assemble reg svc (get_target_components reg svc)).2 := by
    rw [build_app_ok reg m (m.plugins.getD {}) svc t0 rfl hsvc hld]
  refine ⟨?_, ?_, ?_, ?_, ?_⟩
  · intro spec hs hn
    rw [hb]
    exact assemble_err_publisher reg svc _ _ (get_publisher_err reg svc spec hs hn)
  · intro pub spec hp hs hn
    rw [hb]
    exact assemble_err_downloader reg svc _ pub _ hp (get_downloader_err reg svc spec hs hn)
  · intro pub dl nm hp hd hs hn
    rw [hb]
    exact assemble_err_format reg svc _ pub dl _ hp hd (get_format_err reg svc nm hs hn)
  · intro pub dl fmt spec hp hd hf hs hn
    rw [hb]
    exact assemble_err_consumer reg svc _ pub dl fmt _ hp hd hf
      (get_consumer_err reg svc spec pub dl _ hs hn)
  · intro pub dl fmt cons ws1 w ws2 hp hd hf hc hw hok hn
    rw [hb]
    exact assemble_err_watchers reg svc _ pub dl fmt cons _ hp hd hf hc
      (get_watchers_err reg svc ws1 w ws2 hw hok hn)

/-- Witness for C5: an unresolvable publisher name and an unresolvable
watcher name each produce the exact message around the identifier. -/
theorem unresolved_name_raises_named_error_witness :
    (build_app regR m5p).2 = .error (notFoundMsg "missing.pub") ∧
    (build_app regR m10).2 = .error (notFoundMsg "missing.w") :=
  ⟨(unresolved_name_raises_named_error regR m5p svc5p [] rfl rfl).1
      { name := "missing.pub" } rfl rfl,
    (unresolved_name_raises_named_error regR m10 svc10 [] rfl rfl).2.2.2.2
      (Obj.inst compPub [] []) (Obj.inst compDl [] []) (Obj.cls compFmt)
      (Obj.inst compCons
        [Obj.inst compPub [] [], Obj.inst compDl [] [],
          Obj.inst EngineCls [Obj.graphVal none, Obj.cls compFmt] []] [])
      [] { name := "missing.w" } [] rfl rfl rfl rfl rfl
      (fun w1 hx => absurd hx (List.not_mem_nil w1)) rfl⟩

/-- C6: a resolved ComponentSpec is constructed with the spec args as the
positional argument list and the spec kwargs as the keyword argument list
(`comp(*args, **kwargs)`); for the consumer slot, `(publisher, downloader,
engine)` are prepended before any manifest-supplied positional args. -/
theorem spec_args_positional_consumer_prepended (reg : Registry) (spec : ComponentSpec)
    (c : Component) (h : reg.get_component spec.name = some c) :
    (load_spec reg spec).2 = .ok (Obj.inst c (spec.args.map Obj.atom) (kwObjs spec.kwargs)) ∧
    (∀ svc, svc.publisher = some spec →
      (get_publisher reg svc).2 =
        .ok (Obj.inst c (spec.args.map Obj.atom) (kwObjs spec.kwargs))) ∧
    (∀ svc pub dl eng, svc.consumer = some spec →
      (get_consumer reg svc pub dl eng).2 =
        .ok (Obj.inst c ([pub, dl, eng] ++ spec.args.map Obj.atom) (kwObjs spec.kwargs))) := by
  refine ⟨by simp only [load_spec, h], ?_, ?_⟩
  · intro svc hs
    simp only [get_publisher, hs, h]
  · intro svc pub dl eng hs
    simp only [get_consumer, hs, h]

/-- Witness for C6 at a spec with two positional args and one kwarg. -/
theorem spec_args_positional_consumer_prepended_witness :
    regR.get_component spec6.name = some compCons ∧
    ((load_spec regR spec6).2 =
        .ok (Obj.inst compCons (spec6.args.map Obj.atom) (kwObjs spec6.kwargs)) ∧
      (∀ svc, svc.publisher = some spec6 →
        (get_publisher regR svc).2 =
          .ok (Obj.inst compCons (spec6.args.map Obj.atom) (kwObjs spec6.kwargs))) ∧
      (∀ svc pub dl eng, svc.consumer = some spec6 →
        (get_consumer regR svc pub dl eng).2 =
          .ok (Obj.inst compCons ([pub, dl, eng] ++ spec6.args.map Obj.atom)
            (kwObjs spec6.kwargs)))) :=
  ⟨by decide, spec_args_positional_consumer_prepended regR spec6 compCons (by decide)⟩

/-- C7: for each absent slot among `service.format`, `service.publisher`,
`service.downloader` and `service.consumer`, the builder uses exactly the
built-in default for that slot (human-readable format class, `StdOut()`
instance, `LocalFS` class, `Interactive(publisher, downloader, engine)`),
emits no registry lookup for that slot, and — with every slot absent —
assembles exactly the default pipeline. -/
theorem absent_slots_use_builtin_defaults (reg : Registry) (svc : Service) (pub dl eng : Obj)
    (g : Option Graph) :
    (svc.format = none → get_format reg svc = ([], .ok (Obj.cls HumanReadableFormat))) ∧
    (svc.publisher = none → get_publisher reg svc =
      ([Event.construct (Obj.inst StdOut [] [])], .ok (Obj.inst StdOut [] []))) ∧
    (svc.downloader = none → get_downloader reg svc = ([], .ok (Obj.cls LocalFS))) ∧
    (svc.consumer = none → get_consumer reg svc pub dl eng =
      ([Event.construct (Obj.inst Interactive [pub, dl, eng] [])],
        .ok (Obj.inst Interactive [pub, dl, eng] []))) ∧
    (svc.format = none → ∀ n, Event.getComponent n ∉ (get_format reg svc).1) ∧
    (svc.publisher = none → ∀ n, Event.getComponent n ∉ (get_publisher reg svc).1) ∧
    (svc.downloader = none → ∀ n, Event.getComponent n ∉ (get_downloader reg svc).1) ∧
    (svc.consumer = none → ∀ n, Event.getComponent n ∉ (get_consumer reg svc pub dl eng).1) ∧
    (svc.format = none → svc.publisher = none → svc.downloader = none → svc.consumer = none →
      svc.watchers = none →
      (assemble reg svc g).2 = .ok (Obj.inst Interactive
        [Obj.inst StdOut [] [], Obj.cls LocalFS,
          Obj.inst EngineCls [Obj.graphVal g, Obj.cls HumanReadableFormat] []] [])) := by
  refine ⟨fun h => by simp [get_format, h], fun h => by simp [get_publisher, h],
    fun h => by simp [get_downloader, h], fun h => by simp [get_consumer, h],
    fun h n => by simp [get_format, h], fun h n => by simp [get_publisher, h],
    fun h n => by simp [get_downloader, h], fun h n => by simp [get_consumer, h],
    fun hf hp hd hc hw => ?_⟩
  simp only [assemble, get_publisher, hp, get_downloader, hd, get_format, hf,
    get_consumer, hc, get_watchers, hw]

/-- Witness for C7 at the empty service section. -/
theorem absent_slots_use_builtin_defaults_witness :
    get_format regT svc0 = ([], .ok (Obj.cls HumanReadableFormat)) ∧
    get_publisher regT svc0 =
      ([Event.construct (Obj.inst StdOut [] [])], .ok (Obj.inst StdOut [] [])) ∧
    get_downloader regT svc0 = ([], .ok (Obj.cls LocalFS)) ∧
    get_consumer regT svc0 (Obj.atom "p") (Obj.atom "d") (Obj.atom "e") =
      ([Event.construct (Obj.inst Interactive [Obj.atom "p", Obj.atom "d", Obj.atom "e"] [])],
        .ok (Obj.inst Interactive [Obj.atom "p", Obj.atom "d", Obj.atom "e"] [])) ∧
    (assemble regT svc0 none).2 = .ok (Obj.inst Interactive
      [Obj.inst StdOut [] [], Obj.cls LocalFS,
        Obj.inst EngineCls [Obj.graphVal none, Obj.cls HumanReadableFormat] []] []) :=
  have h := absent_slots_use_builtin_defaults regT svc0 (Obj.atom "p") (Obj.atom "d")
    (Obj.atom "e") none
  ⟨h.1 rfl, h.2.1 rfl, h.2.2.1 rfl, h.2.2.2.1 rfl, h.2.2.2.2.2.2.2.2 rfl rfl rfl rfl rfl⟩

theorem watchEngine_mem_attach (ws : List Obj) (w : Obj) :
    Event.watchEngine w ∈ attach_events ws ↔ (w ∈ ws ∧ w.isEngineWatcher = true) := by
  induction ws with
  | nil => simp [attach_events]
  | cons x t ih =>
    by_cases he : x.isEngineWatcher = true <;> by_cases hc : x.isConsumerWatcher = true <;>
      simp [attach_events, he, hc, ih, List.mem_cons] <;> aesop

theorem watchConsumer_mem_attach (ws : List Obj) (w : Obj) :
    Event.watchConsumer w ∈ attach_events ws ↔ (w ∈ ws ∧ w.isConsumerWatcher = true) := by
  induction ws with
  | nil => simp [attach_events]
  | cons x t ih =>
    by_cases he : x.isEngineWatcher = true <;> by_cases hc : x.isConsumerWatcher = true <;>
      simp [attach_events, he, hc, ih, List.mem_cons] <;> aesop

/-- C8: in the attachment loop, a constructed watcher is attached to the
engine exactly when it has the engine-observation capability and to the
consumer exactly when it has the consumer-observation capability; the two
checks are independent. -/
theorem watcher_attachment_capability_based (ws : List Obj) (w : Obj) (hw : w ∈ ws) :
    (Event.watchEngine w ∈ attach_events ws ↔ w.isEngineWatcher = true) ∧
    (Event.watchConsumer w ∈ attach_events ws ↔ w.isConsumerWatcher = true) := by
  constructor
  · rw [watchEngine_mem_attach]
    simp [hw]
  · rw [watchConsumer_mem_attach]
    simp [hw]

/-- Witness for C8: a both-capability watcher is attached to both, a
no-capability watcher to neither, in the same list. -/
theorem watcher_attachment_capability_based_witness :
    ((Event.watchEngine wBoth ∈ attach_events ws8 ↔ wBoth.isEngineWatcher = true) ∧
      (Event.watchConsumer wBoth ∈ attach_events ws8 ↔ wBoth.isConsumerWatcher = true)) ∧
    ((Event.watchEngine wNone ∈ attach_events ws8 ↔ wNone.isEngineWatcher = true) ∧
      (Event.watchConsumer wNone ∈ attach_events ws8 ↔ wNone.isConsumerWatcher = true)) :=
  ⟨watcher_attachment_capability_based ws8 wBoth (List.mem_cons_self wBoth [wNone]),
    watcher_attachment_capability_based ws8 wNone
      (List.mem_cons_of_mem wBoth (List.mem_cons_self wNone []))⟩

/-- C9: with both slots absent, the downloader default is the class
`LocalFS` itself (an uninstantiated constructor, and a class object is
never equal to any instance), while the publisher default is a `StdOut`
instance constructed with no arguments. -/
theorem downloader_default_uninstantiated_publisher_instance (reg : Registry) (svc : Service)
    (hd : svc.downloader = none) (hp : svc.publisher = none) :
    get_downloader reg svc = ([], .ok (Obj.cls LocalFS)) ∧
    get_publisher reg svc =
      ([Event.construct (Obj.inst StdOut [] [])], .ok (Obj.inst StdOut [] [])) ∧
    (∀ c args kwargs, Obj.cls LocalFS ≠ Obj.inst c args kwargs) :=
  ⟨by simp [get_downloader, hd], by simp [get_publisher, hp],
    fun c args kwargs h => Obj.noConfusion h⟩

/-- Witness for C9 at the empty service section. -/
theorem downloader_default_uninstantiated_publisher_instance_witness :
    get_downloader regT svc0 = ([], .ok (Obj.cls LocalFS)) ∧
    get_publisher regT svc0 =
      ([Event.construct (Obj.inst StdOut [] [])], .ok (Obj.inst StdOut [] [])) ∧
    (∀ c args kwargs, Obj.cls LocalFS ≠ Obj.inst c args kwargs) :=
  downloader_default_uninstantiated_publisher_instance regT svc0 rfl rfl

/-- C10: watcher specs are resolved only after publisher, downloader,
engine and consumer construction: when every pipeline slot resolves but a
watcher name does not, `build_app` fails naming the watcher, yet the trace
already contains the four constructor events. -/
theorem watcher_failure_after_pipeline_constructed
    (reg : Registry) (m : Manifest) (svc : Service) (t0 : List Event)
    (sp sd sc : ComponentSpec) (nf : String) (cP cD cF cC : Component)
    (w : ComponentSpec) (ws2 : List ComponentSpec)
    (hsvc : m.service.getD {} = svc)
    (hld : load_packages reg (m.plugins.getD {}).packages = (t0, Except.ok ()))
    (hP : svc.publisher = some sp) (hPc : reg.get_component sp.name = some cP)
    (hD : svc.downloader = some sd) (hDc : reg.get_component sd.name = some cD)
    (hF : svc.format = some nf) (hFc : reg.get_component nf = some cF)
    (hC : svc.consumer = some sc) (hCc : reg.get_component sc.name = some cC)
    (hW : svc.watchers = some (w :: ws2)) (hWn : reg.get_component w.name = none) :
    (build_app reg m).2 = .error (notFoundMsg w.name) ∧
    Event.construct (Obj.inst cP (sp.args.map Obj.atom) (kwObjs sp.kwargs)) ∈
      (build_app reg m).1 ∧
    Event.construct (Obj.inst cD (sd.args.map Obj.atom) (kwObjs sd.kwargs)) ∈
      (build_app reg m).1 ∧
    Event.construct
      (Obj.inst EngineCls [Obj.graphVal (get_target_components reg svc), Obj.cls cF] []) ∈
      (build_app reg m).1 ∧
    Event.construct (Obj.inst cC
      ([Obj.inst cP (sp.args.map Obj.atom) (kwObjs sp.kwargs),
        Obj.inst cD (sd.args.map Obj.atom) (kwObjs sd.kwargs),
        Obj.inst EngineCls [Obj.graphVal (get_target_components reg svc), Obj.cls cF] []] ++
        sc.args.map Obj.atom) (kwObjs sc.kwargs)) ∈ (build_app reg m).1 := by
  have hb := build_app_ok reg m (m.plugins.getD {}) svc t0 rfl hsvc hld
  have e1 : get_publisher reg svc =
      ([Event.getComponent sp.name,
        Event.construct (Obj.inst cP (sp.args.map Obj.atom) (kwObjs sp.kwargs))],
       .ok (Obj.inst cP (sp.args.map Obj.atom) (kwObjs sp.kwargs))) := by
    simp only [get_publisher, hP, hPc]
  have e2 : get_downloader reg svc =
      ([Event.getComponent sd.name,
        Event.construct (Obj.inst cD (sd.args.map Obj.atom) (kwObjs sd.kwargs))],
       .ok (Obj.inst cD (sd.args.map Obj.atom) (kwObjs sd.kwargs))) := by
    simp only [get_downloader, hD, load_spec, hDc]
  have e3 : get_format reg svc = ([Event.getComponent nf], .ok (Obj.cls cF)) := by
    simp only [get_format, hF, hFc]
  have e5 : get_watchers reg svc =
      ([Event.getComponent w.name], .error (notFoundMsg w.name)) := by
    simp only [get_watchers, hW, load_specs, load_spec, hWn]
  rw [hb]
  simp only [assemble, e1, e2, e3, e5, get_consumer, hC, hCc]
  simp

/-- Witness for C10: the fully specified manifest `m10` with the
unresolvable watcher `missing.w`. -/
theorem watcher_failure_after_pipeline_constructed_witness :
    (build_app regR m10).2 = .error (notFoundMsg "missing.w") ∧
    Event.construct (Obj.inst compPub [] []) ∈ (build_app regR m10).1 ∧
    Event.construct (Obj.inst compDl [] []) ∈ (build_app regR m10).1 ∧
    Event.construct
      (Obj.inst EngineCls [Obj.graphVal (get_target_components regR svc10), Obj.cls compFmt] []) ∈
      (build_app regR m10).1 ∧
    Event.construct (Obj.inst compCons
      [Obj.inst compPub [] [], Obj.inst compDl [] [],
        Obj.inst EngineCls [Obj.graphVal (get_target_components regR svc10), Obj.cls compFmt] []]
      []) ∈ (build_app regR m10).1 :=
  watcher_failure_after_pipeline_constructed regR m10 svc10 []
    { name := "good.pub" } { name := "good.dl" } { name := "good.cons" } "good.fmt"
    compPub compDl compFmt compCons { name := "missing.w" } []
    rfl rfl rfl rfl rfl rfl rfl rfl rfl rfl rfl rfl

/-- C1: the claim states that the override list of the top level `configs`
section is what `build_app` passes to the external `apply_configs`; the
code instead passes the `plugins` mapping (line 117 of the source:
`apply_configs(self.plugins)`), while `self.configs` is stored and never
read.  At the concrete manifest `m1`, whose `configs` section holds one
override entry, the `apply_configs` call receives an argument holding no
override entries at all. -/
theorem apply_configs_receives_plugins_not_configs :
    m1.configs = some [cfg1] ∧
    Event.applyConfigs pl1 ∈ (build_app regT m1).1 ∧
    (∀ pl, Event.applyConfigs pl ∈ (build_app regT m1).1 → pl.configs = []) := by
  have ht : (build_app regT m1).1 =
      [Event.applyDefaultEnabled pl1, Event.applyConfigs pl1,
        Event.construct (Obj.inst StdOut [] []),
        Event.construct (Obj.inst EngineCls [Obj.graphVal none, Obj.cls HumanReadableFormat] []),
        Event.construct (Obj.inst Interactive
          [Obj.inst StdOut [] [], Obj.cls LocalFS,
            Obj.inst EngineCls [Obj.graphVal none, Obj.cls HumanReadableFormat] []] [])] := rfl
  refine ⟨rfl, ?_, ?_⟩
  · rw [ht]
    exact List.mem_cons_of_mem _ (List.mem_cons_self _ _)
  · intro pl hpl
    rw [ht] at hpl
    rcases List.mem_cons.mp hpl with h | hpl
    · exact Event.noConfusion h
    rcases List.mem_cons.mp hpl with h | hpl
    · cases h
      rfl
    rcases List.mem_cons.mp hpl with h | hpl
    · exact Event.noConfusion h
    rcases List.mem_cons.mp hpl with h | hpl
    · exact Event.noConfusion h
    rcases List.mem_cons.mp hpl with h | hpl
    · exact Event.noConfusion h
    · exact absurd hpl (List.not_mem_nil _)
